import Mathlib

/-!
Shallow embedding of the `pricing-core` engine.

All monetary quantities are BigInt in the source; they are modelled as `Int`.
JavaScript BigInt division (`/`) and remainder (`%`) truncate toward zero,
which is `Int.tdiv` / `Int.tmod` in Lean, so every division and remainder in
the embedding uses those.  Thrown errors are modelled with `Except String`.
-/

namespace PricingCore

/-- Embeds `divCeil` from `math.js`: `(num + den - 1n) / den` with BigInt
truncating division. -/
def divCeil (num den : Int) : Int := (num + den - 1).tdiv den

/-- Embeds `divNearest` from `math.js`: `(num + den / 2n) / den`. -/
def divNearest (num den : Int) : Int := (num + den.tdiv 2).tdiv den

/-- Embeds the `identity` rounder: keep the price as-is. -/
def identity (priceUnits : Int) : Int := priceUnits

/-- Embeds `charm99` from `charm99.js`: force an `.99` ending, always rounding
up to `x.99` if not already there.  The source also binds `cents` to
`priceUnits % 100n`, but never uses it, so it is omitted here. -/
def charm99 (priceUnits : Int) : Int :=
  let hundred : Int := 100
  let dollars := priceUnits.tdiv hundred
  let target := dollars * hundred + 99
  if target ≥ priceUnits then target else (dollars + 1) * hundred + 99

/-- Embeds `ceilStep` from `ceilStep.js`: round up to the next multiple of
`stepUnits`. -/
def ceilStep (stepUnits : Int) (priceUnits : Int) : Int :=
  let r := priceUnits.tmod stepUnits
  if r = 0 then priceUnits else priceUnits + (stepUnits - r)

/-- `ceilStepUSD = ceilStep(5n)` (nickels). -/
def ceilStepUSD : Int → Int := ceilStep 5

/-- `ceilStepEUR = ceilStep(5n)` (5 centimes). -/
def ceilStepEUR : Int → Int := ceilStep 5

/-- `ceilStepJPY = ceilStep(1n)` (whole yen). -/
def ceilStepJPY : Int → Int := ceilStep 1

/-- `ceilStepINR = ceilStep(5n)` (5 paise). -/
def ceilStepINR : Int → Int := ceilStep 5

/-- Embeds the `rounders` registry object from `rounding/index.js` as a lookup
from string key to rounding function. -/
def rounders (key : String) : Option (Int → Int) :=
  if key = "identity" then some identity
  else if key = "ceilStep5" then some (ceilStep 5)
  else if key = "ceilStep10" then some (ceilStep 10)
  else if key = "ceilStepUSD" then some ceilStepUSD
  else if key = "ceilStepEUR" then some ceilStepEUR
  else if key = "ceilStepJPY" then some ceilStepJPY
  else if key = "ceilStepINR" then some ceilStepINR
  else if key = "charm99" then some charm99
  else none

/-- The `rounding` argument of `calculatePrice`: either a registry key (string)
or a caller-supplied custom rounding function. -/
inductive Rounding where
  | key (s : String)
  | custom (f : Int → Int)

/-- Embeds `resolveRounder` from `rounding/index.js`: a function value is used
as-is; a string is looked up in the registry, and an unknown key throws. -/
def resolveRounder : Rounding → Except String (Int → Int)
  | Rounding.custom f => Except.ok f
  | Rounding.key s =>
    match rounders s with
    | some r => Except.ok r
    | none => Except.error ("Unknown rounding style: " ++ s)

/-- Embeds `calculatePrice` from `calculator.js` (multi-strategy version):
validate the cost, dispatch on the strategy string to compute the raw price
(or throw a validation error), then apply the resolved rounder. -/
def calculatePrice (costUnits markupValue : Int) (strategy : String)
    (rounding : Rounding) : Except String Int :=
  let cost := costUnits
  let markup := markupValue
  if cost < 0 then Except.error "costUnits cannot be negative."
  else
    let raw : Except String Int :=
      if strategy = "margin" then
        if markup < 0 ∨ markup ≥ 10000 then
          Except.error "marginBps must be between 0 and 9999 (i.e., < 100%)."
        else
          let ONE : Int := 10000
          let denom := ONE - markup
          let numerator := cost * ONE
          Except.ok (divCeil numerator denom)
      else if strategy = "costPlus" then
        if markup < 0 then Except.error "costPlus markup cannot be negative."
        else
          let markupMultiplier := 10000 + markup
          Except.ok ((cost * markupMultiplier).tdiv 10000)
      else if strategy = "keystone" then
        Except.ok (cost * 2)
      else if strategy = "keystonePlus" then
        if markup < 0 then Except.error "keystonePlus markup cannot be negative."
        else
          let keystoneMarkup := 10000 + markup
          Except.ok ((cost * 2 * keystoneMarkup).tdiv 10000)
      else if strategy = "fixedAmount" then
        if markup < 0 then Except.error "fixedAmount markup cannot be negative."
        else Except.ok (cost + markup)
      else if strategy = "targetMargin" then
        if markup < 0 ∨ markup ≥ 10000 then
          Except.error "targetMargin must be between 0 and 9999 (i.e., < 100%)."
        else
          let targetDenom : Int := 10000 - markup
          let targetNumerator := cost * 10000
          Except.ok (divCeil targetNumerator targetDenom)
      else if strategy = "markupOnCost" then
        if markup < 0 then Except.error "markupOnCost cannot be negative."
        else
          let costMarkupMultiplier := 10000 + markup
          Except.ok ((cost * costMarkupMultiplier).tdiv 10000)
      else
        Except.error ("Unknown markup strategy: " ++ strategy ++
          ". Supported strategies: margin, costPlus, keystone, keystonePlus, fixedAmount, targetMargin, markupOnCost")
    match raw with
    | Except.error e => Except.error e
    | Except.ok priceUnits =>
      match resolveRounder rounding with
      | Except.error e => Except.error e
      | Except.ok rounder => Except.ok (rounder priceUnits)

/-- The seven strategy names accepted by `calculatePrice`. -/
def supportedStrategies : List String :=
  ["margin", "costPlus", "keystone", "keystonePlus", "fixedAmount",
   "targetMargin", "markupOnCost"]

/-! ### Arithmetic helper lemmas -/

/-- With nonnegative numerator and positive denominator, `divCeil` produces the
exact ceiling, characterised by the two bracketing inequalities. -/
theorem divCeil_spec (num den : Int) (hnum : 0 ≤ num) (hden : 0 < den) :
    num ≤ divCeil num den * den ∧ (divCeil num den - 1) * den < num := by
  have h1 : (0 : Int) ≤ num + den - 1 := by omega
  have h2 : divCeil num den = (num + den - 1) / den :=
    Int.tdiv_eq_ediv h1 (le_of_lt hden)
  have h3 := Int.ediv_add_emod (num + den - 1) den
  have h4 := Int.emod_nonneg (num + den - 1) (by omega : den ≠ 0)
  have h5 := Int.emod_lt_of_pos (num + den - 1) hden
  rw [h2]
  constructor
  · nlinarith [h3, h4, h5]
  · nlinarith [h3, h4, h5]

/-- `divCeil` is monotone in the numerator over nonnegative numerators. -/
theorem divCeil_mono (n₁ n₂ den : Int) (h0 : 0 ≤ n₁) (h12 : n₁ ≤ n₂)
    (hden : 0 < den) : divCeil n₁ den ≤ divCeil n₂ den := by
  have e1 : divCeil n₁ den = (n₁ + den - 1) / den :=
    Int.tdiv_eq_ediv (by omega) (le_of_lt hden)
  have e2 : divCeil n₂ den = (n₂ + den - 1) / den :=
    Int.tdiv_eq_ediv (by omega) (le_of_lt hden)
  rw [e1, e2]
  exact Int.ediv_le_ediv hden (by omega)

/-- On nonnegative input, `charm99` keeps the input's hundreds and sets the
remainder to 99. -/
theorem charm99_eq (x : Int) (hx : 0 ≤ x) :
    charm99 x = 100 * (x / 100) + 99 := by
  have ht : x.tdiv 100 = x / 100 := Int.tdiv_eq_ediv hx (by norm_num)
  simp only [charm99, ht]
  split
  · ring
  · omega

/-! ### Claim theorems -/

/-- C1: for every cost `C ≥ 0` and margin `0 ≤ M < 10000`,
`calculatePrice(C, M, 'margin', 'identity')` returns the minimal integer `P`
satisfying the margin floor: `P * (10000 - M) ≥ C * 10000` and
`(P - 1) * (10000 - M) < C * 10000`. -/
theorem margin_identity_is_ceiling (C M : Int) (hC : 0 ≤ C) (hM0 : 0 ≤ M)
    (hM1 : M < 10000) :
    ∃ P : Int,
      calculatePrice C M "margin" (Rounding.key "identity") = Except.ok P ∧
      C * 10000 ≤ P * (10000 - M) ∧ (P - 1) * (10000 - M) < C * 10000 := by
  have hC' : ¬ C < 0 := not_lt.mpr hC
  have hcond : ¬ (M < 0 ∨ M ≥ 10000) := by omega
  have hs := divCeil_spec (C * 10000) (10000 - M)
    (mul_nonneg hC (by norm_num)) (by omega)
  refine ⟨divCeil (C * 10000) (10000 - M), ?_, hs.1, hs.2⟩
  simp [calculatePrice, resolveRounder, rounders, identity, hC', hcond]

/-- Witness for C1 at `C = 250`, `M = 3000`. -/
theorem margin_identity_is_ceiling_witness :
    0 ≤ (250 : Int) ∧ 0 ≤ (3000 : Int) ∧ (3000 : Int) < 10000 ∧
      ∃ P : Int,
        calculatePrice 250 3000 "margin" (Rounding.key "identity") = Except.ok P ∧
        250 * 10000 ≤ P * (10000 - 3000) ∧ (P - 1) * (10000 - 3000) < 250 * 10000 :=
  ⟨by norm_num, by norm_num, by norm_num,
    margin_identity_is_ceiling 250 3000 (by norm_num) (by norm_num) (by norm_num)⟩

/-- C2: for every integer `x ≥ 0`, `charm99 x` reduced mod 100 equals 99, and
`charm99 x ≥ x`. -/
theorem charm99_mod_and_ge (x : Int) (hx : 0 ≤ x) :
    charm99 x % 100 = 99 ∧ x ≤ charm99 x := by
  rw [charm99_eq x hx]
  omega

/-- Witness for C2 at `x = 358`. -/
theorem charm99_mod_and_ge_witness :
    0 ≤ (358 : Int) ∧ (charm99 358 % 100 = 99 ∧ (358 : Int) ≤ charm99 358) :=
  ⟨by norm_num, charm99_mod_and_ge 358 (by norm_num)⟩

/-- C3: for every `step ≥ 1` and price `x ≥ 0`, `ceilStep step x` is the
smallest multiple of `step` that is ≥ `x`; if `x` is already an exact
multiple of `step` it is returned unchanged. -/
theorem ceilStep_least_multiple (step x : Int) (hstep : 1 ≤ step) (hx : 0 ≤ x) :
    step ∣ ceilStep step x ∧ x ≤ ceilStep step x ∧
      (∀ m : Int, step ∣ m → x ≤ m → ceilStep step x ≤ m) ∧
      (step ∣ x → ceilStep step x = x) := by
  have hpos : (0 : Int) < step := by omega
  have hmod : x.tmod step = x % step := Int.tmod_eq_emod hx (by omega)
  have h3 := Int.ediv_add_emod x step
  have h4 := Int.emod_nonneg x (by omega : step ≠ 0)
  have h5 := Int.emod_lt_of_pos x hpos
  simp only [ceilStep, hmod]
  by_cases hr : x % step = 0
  · rw [if_pos hr]
    exact ⟨Int.dvd_of_emod_eq_zero hr, le_refl x, fun m _ hm => hm, fun _ => rfl⟩
  · rw [if_neg hr]
    have hrpos : 0 < x % step := lt_of_le_of_ne h4 (Ne.symm hr)
    refine ⟨⟨x / step + 1, by linarith⟩, by linarith, ?_, ?_⟩
    · intro m hdvd hm
      obtain ⟨k, hk⟩ := hdvd
      have hm' : x ≤ step * k := by rw [hk] at hm; exact hm
      have h6 : step * (x / step) < step * k := by linarith
      have h7 : x / step < k := lt_of_mul_lt_mul_left h6 (by omega)
      have h8 : step * (x / step + 1) ≤ step * k :=
        mul_le_mul_of_nonneg_left (by omega) (by omega)
      rw [hk]
      linarith
    · intro hdvd
      exact absurd (Int.emod_eq_zero_of_dvd hdvd) hr

/-- Witness for C3 at `step = 5`, `x = 7`. -/
theorem ceilStep_least_multiple_witness :
    1 ≤ (5 : Int) ∧ 0 ≤ (7 : Int) ∧
      ((5 : Int) ∣ ceilStep 5 7 ∧ (7 : Int) ≤ ceilStep 5 7 ∧
        (∀ m : Int, (5 : Int) ∣ m → (7 : Int) ≤ m → ceilStep 5 7 ≤ m) ∧
        ((5 : Int) ∣ 7 → ceilStep 5 7 = 7)) :=
  ⟨by norm_num, by norm_num,
    ceilStep_least_multiple 5 7 (by norm_num) (by norm_num)⟩

/-- C4: for every supported strategy, markup and rounding argument, a negative
cost fails with the invalid-cost error; no price is returned. -/
theorem negative_cost_invalid (cost markup : Int) (strategy : String)
    (r : Rounding) (_hstrat : strategy ∈ supportedStrategies) (hc : cost < 0) :
    calculatePrice cost markup strategy r =
      Except.error "costUnits cannot be negative." := by
  simp [calculatePrice, hc]

/-- Witness for C4 at cost `-1`, strategy `margin`, identity rounding. -/
theorem negative_cost_invalid_witness :
    "margin" ∈ supportedStrategies ∧ (-1 : Int) < 0 ∧
      calculatePrice (-1) 0 "margin" (Rounding.key "identity") =
        Except.error "costUnits cannot be negative." :=
  ⟨by simp [supportedStrategies], by norm_num,
    negative_cost_invalid (-1) 0 "margin" (Rounding.key "identity")
      (by simp [supportedStrategies]) (by norm_num)⟩

/-- C5: for every cost ≥ 0 and every rounding argument, a markup of exactly
10000 (100%) fails with the invalid-margin error for the `margin` strategy and
for the `targetMargin` strategy. -/
theorem margin_10000_invalid (cost : Int) (r : Rounding) (hc : 0 ≤ cost) :
    calculatePrice cost 10000 "margin" r =
        Except.error "marginBps must be between 0 and 9999 (i.e., < 100%)." ∧
      calculatePrice cost 10000 "targetMargin" r =
        Except.error "targetMargin must be between 0 and 9999 (i.e., < 100%)." := by
  have hc' : ¬ cost < 0 := not_lt.mpr hc
  constructor <;> simp [calculatePrice, hc']

/-- Witness for C5 at cost `0`, identity rounding. -/
theorem margin_10000_invalid_witness :
    0 ≤ (0 : Int) ∧
      (calculatePrice 0 10000 "margin" (Rounding.key "identity") =
          Except.error "marginBps must be between 0 and 9999 (i.e., < 100%)." ∧
        calculatePrice 0 10000 "targetMargin" (Rounding.key "identity") =
          Except.error "targetMargin must be between 0 and 9999 (i.e., < 100%).") :=
  ⟨le_refl 0, margin_10000_invalid 0 (Rounding.key "identity") (le_refl 0)⟩

/-- C6: for every cost ≥ 0 and every markup value (including zero and negative
values), the `keystone` strategy with identity rounding returns exactly
`2 * cost` and never raises a markup-validation error. -/
theorem keystone_double (cost markup : Int) (hc : 0 ≤ cost) :
    calculatePrice cost markup "keystone" (Rounding.key "identity") =
      Except.ok (2 * cost) := by
  have hc' : ¬ cost < 0 := not_lt.mpr hc
  simp [calculatePrice, resolveRounder, rounders, identity, hc', Int.mul_comm]

/-- Witness for C6 at cost `1000`, markup `-5`. -/
theorem keystone_double_witness :
    0 ≤ (1000 : Int) ∧
      calculatePrice 1000 (-5) "keystone" (Rounding.key "identity") =
        Except.ok (2 * 1000) :=
  ⟨by norm_num, keystone_double 1000 (-5) (by norm_num)⟩

/-- C7: for every cost ≥ 0 and markup ≥ 0, the `costPlus` strategy with
identity rounding returns `floor(cost * (10000 + markup) / 10000)` — floor
division, with no ceiling protection. -/
theorem costPlus_floor (cost markup : Int) (hc : 0 ≤ cost) (hm : 0 ≤ markup) :
    calculatePrice cost markup "costPlus" (Rounding.key "identity") =
      Except.ok (cost * (10000 + markup) / 10000) := by
  have hc' : ¬ cost < 0 := not_lt.mpr hc
  have hm' : ¬ markup < 0 := not_lt.mpr hm
  have ht : (cost * (10000 + markup)).tdiv 10000 =
      cost * (10000 + markup) / 10000 :=
    Int.tdiv_eq_ediv (mul_nonneg hc (by omega)) (by norm_num)
  simp [calculatePrice, resolveRounder, rounders, identity, hc', hm', ht]

/-- Witness for C7 at cost `1000`, markup `2500`: the returned price is 1250. -/
theorem costPlus_floor_witness :
    0 ≤ (1000 : Int) ∧ 0 ≤ (2500 : Int) ∧
      calculatePrice 1000 2500 "costPlus" (Rounding.key "identity") =
        Except.ok 1250 :=
  ⟨by norm_num, by norm_num,
    (costPlus_floor 1000 2500 (by norm_num) (by norm_num)).trans (by rfl)⟩

/-- C8: for every cost ≥ 0, margin `0 ≤ markup < 10000` and every rounding
argument, the `targetMargin` strategy returns the same result as the `margin`
strategy: the two are behaviorally identical on all valid inputs. -/
theorem targetMargin_eq_margin (cost markup : Int) (r : Rounding) (hc : 0 ≤ cost)
    (h0 : 0 ≤ markup) (h1 : markup < 10000) :
    calculatePrice cost markup "targetMargin" r =
      calculatePrice cost markup "margin" r := by
  have hc' : ¬ cost < 0 := not_lt.mpr hc
  have hcond : ¬ (markup < 0 ∨ markup ≥ 10000) := by omega
  simp [calculatePrice, hc', hcond]

/-- Witness for C8 at cost `250`, markup `3000`, identity rounding. -/
theorem targetMargin_eq_margin_witness :
    0 ≤ (250 : Int) ∧
      calculatePrice 250 3000 "targetMargin" (Rounding.key "identity") =
        calculatePrice 250 3000 "margin" (Rounding.key "identity") :=
  ⟨by norm_num,
    targetMargin_eq_margin 250 3000 (Rounding.key "identity") (by norm_num)
      (by norm_num) (by norm_num)⟩

/-- C9: for every `x ≥ 0`, `charm99 x = 100 * (x / 100) + 99`, so the
overcharge `charm99 x - x` is at most 99 and the advance-to-next-hundred
branch of `charm99` is unreachable for nonnegative inputs. -/
theorem charm99_hundreds_floor (x : Int) (hx : 0 ≤ x) :
    charm99 x = 100 * (x / 100) + 99 ∧ charm99 x - x ≤ 99 := by
  have h := charm99_eq x hx
  refine ⟨h, ?_⟩
  rw [h]
  omega

/-- Witness for C9 at `x = 123`. -/
theorem charm99_hundreds_floor_witness :
    0 ≤ (123 : Int) ∧
      (charm99 123 = 100 * (123 / 100) + 99 ∧ charm99 123 - 123 ≤ 99) :=
  ⟨by norm_num, charm99_hundreds_floor 123 (by norm_num)⟩

/-- C10: for a fixed margin `0 ≤ M < 10000`, the `margin` strategy with
identity rounding is monotone non-decreasing in the cost. -/
theorem margin_monotone_in_cost (c₁ c₂ M p₁ p₂ : Int) (h0 : 0 ≤ c₁)
    (h12 : c₁ ≤ c₂) (hM0 : 0 ≤ M) (hM1 : M < 10000)
    (e₁ : calculatePrice c₁ M "margin" (Rounding.key "identity") = Except.ok p₁)
    (e₂ : calculatePrice c₂ M "margin" (Rounding.key "identity") = Except.ok p₂) :
    p₁ ≤ p₂ := by
  have hc₁ : ¬ c₁ < 0 := by omega
  have hc₂ : ¬ c₂ < 0 := by omega
  have hcond : ¬ (M < 0 ∨ M ≥ 10000) := by omega
  simp [calculatePrice, resolveRounder, rounders, identity, hc₁, hcond] at e₁
  simp [calculatePrice, resolveRounder, rounders, identity, hc₂, hcond] at e₂
  subst e₁
  subst e₂
  exact divCeil_mono (c₁ * 10000) (c₂ * 10000) (10000 - M)
    (mul_nonneg h0 (by norm_num))
    (mul_le_mul_of_nonneg_right h12 (by norm_num)) (by omega)

/-- Witness for C10 at `c₁ = 100`, `c₂ = 200`, `M = 2000`. -/
theorem margin_monotone_in_cost_witness :
    calculatePrice 100 2000 "margin" (Rounding.key "identity") = Except.ok 125 ∧
      calculatePrice 200 2000 "margin" (Rounding.key "identity") = Except.ok 250 ∧
      (125 : Int) ≤ 250 :=
  ⟨rfl, rfl,
    margin_monotone_in_cost 100 200 2000 125 250 (by norm_num) (by norm_num)
      (by norm_num) (by norm_num) rfl rfl⟩

end PricingCore
